import Mathlib

/-
Formal model of the plugin messaging layer of upsun/fastsun
(src/src/utils/pluginSDK.ts), shallow-embedded in Lean 4.

The subsystem is single-threaded and event-driven, so stateful code is
modelled by explicit state passing: the subscription list of the bus, the
pending-request table of a client and the recorded height of the resize
reporter are threaded through pure functions, and the observable effects
(invocations of subscriber callbacks, promise resolutions, publishes,
destroy calls) are returned as explicit logs.
-/

namespace SDK

/-- JS runtime values, restricted to what the messaging layer inspects:
truthiness (for the fallback expression data or-else params and for the
action guard) and identity or structural equality. Objects are identified
by an identity tag, mirroring reference equality of distinct JS objects. -/
inductive JSValue
  | undefined
  | null
  | bool (b : Bool)
  | num (n : Int)
  | str (s : String)
  | obj (oid : Nat)
  deriving DecidableEq, Repr

/-- JS truthiness: undefined, null, false, 0 and the empty string are falsy. -/
def JSValue.truthy : JSValue → Bool
  | .undefined => false
  | .null => false
  | .bool b => b
  | .num n => n != 0
  | .str s => s != ""
  | .obj _ => true

/-- The JS expression a or-else b (written with the logical-or operator):
yields a when a is truthy, otherwise b. Used by dispatch for the payload
fallback (pluginSDK.ts:859). -/
def jsOr (a b : JSValue) : JSValue := if a.truthy then a else b

/-- An inbound postMessage envelope, PluginMessage in the source
(pluginSDK.ts:51-58). A missing data or params field is modelled as
JSValue.undefined. The action is modelled as a string; the handler guard
(if not action, return) rejects the falsy string, the empty one. -/
structure Envelope where
  action : String
  data : JSValue
  params : JSValue
  deriving DecidableEq, Repr

/-- Behaviour of a user-supplied subscription callback, as far as the bus
can observe it: it can return normally, throw, or (re-entrantly) call
destroy on a subscription of the same bus, which splices that subscription
out of the live subscription list (pluginSDK.ts:252-258). -/
inductive CbBehavior
  | ok
  | throwErr (msg : String)
  | destroySub (sid : Nat)
  deriving DecidableEq, Repr

/-- A registered subscription: identity tag (standing for JS object
identity), topic, and callback behaviour (pluginSDK.ts:213-233). -/
structure Subscription where
  sid : Nat
  topic : String
  cb : CbBehavior
  deriving DecidableEq, Repr

/-- The raw user callback run against the live subscription list of the
bus. It may throw (modelled as Except.error) or destroy a subscription:
Subscription.destroy finds the first list entry with the same identity and
splices it out (pluginSDK.ts:252-258). -/
def runCallback (cb : CbBehavior) (subs : List Subscription) :
    Except String (List Subscription) :=
  match cb with
  | .ok => .ok subs
  | .throwErr m => .error m
  | .destroySub j => .ok (subs.eraseP (fun t => t.sid == j))

/-- Subscription.notify (pluginSDK.ts:288-298): the user callback is run
inside try-catch; a thrown exception is logged and absorbed, leaving the
subscription list as it was. -/
def notify (s : Subscription) (subs : List Subscription) : List Subscription :=
  match runCallback s.cb subs with
  | .ok subs2 => subs2
  | .error _ => subs

/-- One observed callback invocation: which subscription was invoked, with
which payload, and whether it was still registered in the live list at the
moment of the invocation (instrumentation used to state the claims). -/
structure Invocation where
  sid : Nat
  payload : JSValue
  registered : Bool
  deriving DecidableEq, Repr

/-- The forEach body of the message handler (pluginSDK.ts:858-860): the
snapshot list produced by filter is walked in order and every element is
notified, while the live subscription list is threaded through the
callbacks (which may mutate it). Returns the invocation log and the final
live list. -/
def notifyAll (p : JSValue) : List Subscription → List Subscription →
    List Invocation × List Subscription
  | [], live => ([], live)
  | s :: rest, live =>
      let inv : Invocation := ⟨s.sid, p, live.any (fun t => t.sid == s.sid)⟩
      let live2 := notify s live
      let pr := notifyAll p rest live2
      (inv :: pr.1, pr.2)

/-- Result of dispatching one envelope: final subscription list plus the
invocation log. -/
structure DispatchResult where
  subs : List Subscription
  invoked : List Invocation
  deriving DecidableEq, Repr

/-- The window message handler installed by the PluginBus constructor
(pluginSDK.ts:837-862): reject an envelope whose action is falsy, filter
the subscriptions whose topic strictly equals the action (a snapshot), and
when the snapshot is nonempty notify each snapshot member with the value
of the expression data or-else params. -/
def dispatchMessage (subs : List Subscription) (e : Envelope) : DispatchResult :=
  if e.action = "" then ⟨subs, []⟩
  else
    let snapshot := subs.filter (fun s => s.topic == e.action)
    if snapshot.length > 0 then
      let pr := notifyAll (jsOr e.data e.params) snapshot subs
      ⟨pr.2, pr.1⟩
    else ⟨subs, []⟩

/-- Events that can reach the pending-request table of one Client: an
inbound envelope on the RES sub-topic carrying a reqId, or the firing of
the setTimeout timer armed for a given reqId. -/
inductive ClientEvent
  | response (rid : Nat) (d : JSValue)
  | timeoutFire (rid : Nat)
  deriving DecidableEq, Repr

/-- Observable state of one Client between event turns: the key set of the
pendingRequests map, the log of keys deleted from it, and the log of
promise resolutions (reqId paired with some payload, or none for the null
sentinel). -/
structure ClientRun where
  pending : List Nat
  removals : List Nat
  resolutions : List (Nat × Option JSValue)
  deriving DecidableEq, Repr

/-- One event turn of a Client. A response (the RES subscription callback,
pluginSDK.ts:454-474) acts only when its reqId is a pending key: it
resolves the stored resolver with the payload and deletes the entry. The
timer callback (pluginSDK.ts:556-568) acts only when its reqId is still
pending: it deletes the entry and resolves null. In both paths a missing
entry makes the event a no-op. -/
def stepClient (s : ClientRun) : ClientEvent → ClientRun
  | .response rid d =>
      if rid ∈ s.pending then
        ⟨s.pending.erase rid, s.removals ++ [rid], s.resolutions ++ [(rid, some d)]⟩
      else s
  | .timeoutFire rid =>
      if rid ∈ s.pending then
        ⟨s.pending.erase rid, s.removals ++ [rid], s.resolutions ++ [(rid, none)]⟩
      else s

/-- Run a Client through a sequence of event turns. -/
def runClient (s : ClientRun) (es : List ClientEvent) : ClientRun :=
  es.foldl stepClient s

/-- State reached from a fresh log with pending key set p after the events es. -/
def afterEvents (p : List Nat) (es : List ClientEvent) : ClientRun :=
  runClient ⟨p, [], []⟩ es

/-- The reqId an event is keyed by. -/
def eventTarget : ClientEvent → Nat
  | .response rid _ => rid
  | .timeoutFire rid => rid

/-- The resolution an event produces when it wins the race: the response
payload, or none (the null sentinel) for the timeout. -/
def eventValue : ClientEvent → Option JSValue
  | .response _ d => some d
  | .timeoutFire _ => none

/-- The resolution of the first event in the trace keyed by rid, if any. -/
def firstEventFor (rid : Nat) : List ClientEvent → Option (Option JSValue)
  | [] => none
  | e :: es => if eventTarget e = rid then some (eventValue e) else firstEventFor rid es

/-- The delay actually passed to setTimeout by sendRequest. The TS default
parameter (timeoutMs: number = 1000, pluginSDK.ts:534) substitutes 1000
only when the argument is absent; an explicit 0 is kept as 0. -/
def effectiveTimeoutMs : Option Nat → Nat
  | none => 1000
  | some t => t

/-- Observable outcome of one Client.sendRequest call: the pending key set
afterwards, whether the call resolved immediately with the null sentinel
(duplicate-id path), what was published on the REQ sub-topic, and the
delay of the timer that was armed (none when no timer was armed). -/
structure SendResult where
  pendingAfter : List Nat
  immediateNull : Bool
  published : Option (Nat × JSValue)
  timerDelayMs : Option Nat
  deriving DecidableEq, Repr

/-- Client.sendRequest (pluginSDK.ts:534-573): a reqId already present in
pendingRequests resolves at once to null, touching nothing; otherwise the
entry is registered, the ServiceMessage is published on the REQ sub-topic
and a timer with the effective delay is armed. -/
def sendRequest (pending : List Nat) (reqId : Nat) (d : JSValue)
    (timeoutMs : Option Nat) : SendResult :=
  if reqId ∈ pending then
    ⟨pending, true, none, none⟩
  else
    ⟨pending ++ [reqId], false, some (reqId, d), some (effectiveTimeoutMs timeoutMs)⟩

/-- State of the resize reporter of the PluginSDK facade: the last height
recorded in the frmHeight field, initialised to 0 (pluginSDK.ts:924). -/
structure SdkSize where
  frmHeight : Nat
  deriving DecidableEq, Repr

/-- One trigger of the size observer, the private method
sendHeightToUpsunConsole (pluginSDK.ts:1092-1101): when the recomputed
height equals the recorded one the publish is skipped; otherwise the
height is recorded and published. Returns the new state and whether a
publish happened. -/
def sendHeightToConsole (s : SdkSize) (height : Nat) : SdkSize × Bool :=
  if s.frmHeight = height then (s, false)
  else (⟨height⟩, true)

/-- Run a sequence of observer triggers, counting publishes. -/
def runHeights (s : SdkSize) (hs : List Nat) : SdkSize × Nat :=
  match hs with
  | [] => (s, 0)
  | h :: rest =>
      let pr := sendHeightToConsole s h
      let rr := runHeights pr.1 rest
      (rr.1, (if pr.2 then 1 else 0) + rr.2)

/-- The initial reporter state of a freshly constructed facade. -/
def initialSdkSize : SdkSize := ⟨0⟩

/-- A registered publisher: identity tag and topic (pluginSDK.ts:111-127). -/
structure Publisher where
  pid : Nat
  topic : String
  deriving DecidableEq, Repr

/-- A registered client, as it sits in the clients collection of the bus:
identity tag, base topic, and the identity tags of the REQ publisher and
RES subscription it owns (pluginSDK.ts:446-475). -/
structure ClientObj where
  cid : Nat
  topic : String
  pubPid : Nat
  subSid : Nat
  deriving DecidableEq, Repr

/-- The four child collections of the PluginBus, the installed window
message handler, and a fresh-identity counter standing for JS object
allocation (two distinct new-expressions yield distinct identities). -/
structure BusState where
  subscriptions : List Subscription
  publishers : List Publisher
  clients : List ClientObj
  services : List Nat
  handlerInstalled : Bool
  nextId : Nat
  deriving DecidableEq, Repr

/-- PluginBus.createPublisher (pluginSDK.ts:693-695) via the Publisher
constructor (pluginSDK.ts:121-127): the new publisher is pushed onto the
publishers collection. -/
def createPublisher (b : BusState) (topic : String) : BusState × Publisher :=
  let p : Publisher := ⟨b.nextId, topic⟩
  (⟨b.subscriptions, b.publishers ++ [p], b.clients, b.services,
    b.handlerInstalled, b.nextId + 1⟩, p)

/-- PluginBus.createSubscription (pluginSDK.ts:717-719) via the
Subscription constructor (pluginSDK.ts:226-233): the new subscription is
pushed onto the subscriptions collection. -/
def createSubscription (b : BusState) (topic : String) (cb : CbBehavior) :
    BusState × Subscription :=
  let s : Subscription := ⟨b.nextId, topic, cb⟩
  (⟨b.subscriptions ++ [s], b.publishers, b.clients, b.services,
    b.handlerInstalled, b.nextId + 1⟩, s)

/-- PluginBus.createClient via the Client constructor
(pluginSDK.ts:446-475): the client pushes itself onto the clients
collection, then creates its REQ publisher and its RES subscription
through the bus, which registers each in the corresponding collection. The
RES callback only touches the pendingRequests map of the client, never the
subscription list, hence CbBehavior.ok. -/
def createClient (b : BusState) (topic : String) : BusState × ClientObj :=
  let p : Publisher := ⟨b.nextId + 1, topic ++ "_REQ"⟩
  let s : Subscription := ⟨b.nextId + 2, topic ++ "_RES", CbBehavior.ok⟩
  let c : ClientObj := ⟨b.nextId, topic, p.pid, s.sid⟩
  (⟨b.subscriptions ++ [s], b.publishers ++ [p], b.clients ++ [c], b.services,
    b.handlerInstalled, b.nextId + 3⟩, c)

/-- Publisher.destroy (pluginSDK.ts:179-185): splice the first publisher
with the same identity out of the publishers collection. -/
def publisherDestroy (b : BusState) (pid : Nat) : BusState :=
  ⟨b.subscriptions, b.publishers.eraseP (fun p => p.pid == pid), b.clients,
   b.services, b.handlerInstalled, b.nextId⟩

/-- Wire topic for the context request service (pluginSDK.ts:26). -/
def PLUGIN_SRV_PROPS : String := "PLUGINS_PROPS"

/-- Wire topic for the URL-parameter read service (pluginSDK.ts:27). -/
def PLUGIN_SRV_URL : String := "PLUGINS_URL_PARAMS"

/-- Wire topic for the URL-parameter write notification (pluginSDK.ts:28). -/
def PLUGIN_TOPIC_URL : String := "PLUGINS_URL_PARAMS_SET"

/-- PluginSDK.getUpsunContext (pluginSDK.ts:1006-1010), effect on the bus
collections: a fresh client is created on the context topic; the awaited
sendRequest only touches the pendingRequests map of that client, and the
client is never destroyed before the method returns. -/
def getUpsunContextBus (b : BusState) : BusState :=
  (createClient b PLUGIN_SRV_PROPS).1

/-- PluginSDK.getUrlParams (pluginSDK.ts:1041-1045), effect on the bus
collections: same shape as getUpsunContextBus, on the URL topic. -/
def getUrlParamsBus (b : BusState) : BusState :=
  (createClient b PLUGIN_SRV_URL).1

/-- PluginSDK.setUrlParams (pluginSDK.ts:1072-1076): a throwaway publisher
is created, used once, and destroyed immediately. -/
def setUrlParamsBus (b : BusState) : BusState :=
  let pr := createPublisher b PLUGIN_TOPIC_URL
  publisherDestroy pr.1 pr.2.pid

/-- The facade operations that touch the bus collections. -/
inductive FacadeOp
  | getContext
  | getUrl
  | setUrl
  deriving DecidableEq, Repr

/-- Effect of one facade operation on the bus collections. -/
def applyOp (b : BusState) : FacadeOp → BusState
  | .getContext => getUpsunContextBus b
  | .getUrl => getUrlParamsBus b
  | .setUrl => setUrlParamsBus b

/-- Effect of a sequence of facade operations. -/
def applyOps (b : BusState) (ops : List FacadeOp) : BusState :=
  ops.foldl applyOp b

/-- Well-formedness of the identity allocator: every identity already in a
collection is strictly below the next fresh one. Holds for every bus built
by the constructors of this model and is preserved by every operation. -/
def idsBound (b : BusState) : Prop :=
  (∀ s ∈ b.subscriptions, s.sid < b.nextId) ∧
  (∀ p ∈ b.publishers, p.pid < b.nextId) ∧
  (∀ c ∈ b.clients, c.cid < b.nextId)

instance (b : BusState) : Decidable (idsBound b) := by
  unfold idsBound; infer_instance

/-- The bus of a freshly constructed PluginSDK, before its internal resize
publisher is created: empty collections, handler installed. -/
def emptyBus : BusState := ⟨[], [], [], [], true, 0⟩

/-- JS for-of iteration over an array whose elements may splice themselves
out of that same array when destroyed, as in the destroyAll helper of
PluginBus.destroy (pluginSDK.ts:781-790): the iterator keeps a numeric
index, checks it against the current length, reads the element there,
calls destroy on it (which may mutate the array), and increments. Returns
the final array and the list of elements on which destroy was called, in
order. The fuel argument is instantiated with the initial length, which
bounds the iteration count because destruction never grows the array. -/
def forOfDestroy (eraseOne : α → List α → List α) :
    Nat → Nat → List α → List α × List α
  | 0, _, arr => (arr, [])
  | fuel + 1, idx, arr =>
      if h : idx < arr.length then
        let item := arr.get ⟨idx, h⟩
        let arr2 := eraseOne item arr
        let pr := forOfDestroy eraseOne fuel (idx + 1) arr2
        (pr.1, item :: pr.2)
      else (arr, [])

/-- Subscription.destroy as seen by the subscriptions array
(pluginSDK.ts:252-258): splice out the first entry with the same identity. -/
def subEraseSelf (s : Subscription) (l : List Subscription) : List Subscription :=
  l.eraseP (fun t => t.sid == s.sid)

/-- Publisher.destroy as seen by the publishers array
(pluginSDK.ts:179-185): splice out the first entry with the same identity. -/
def pubEraseSelf (p : Publisher) (l : List Publisher) : List Publisher :=
  l.eraseP (fun q => q.pid == p.pid)

/-- Result of the clients phase of PluginBus.destroy: the three arrays a
client destruction touches, plus the identities of the clients on which
destroy was called. -/
structure ClientPhase where
  clients : List ClientObj
  publishers : List Publisher
  subscriptions : List Subscription
  destroyed : List Nat
  deriving DecidableEq, Repr

/-- The for-of loop of destroyAll over the clients array. Client.destroy
(pluginSDK.ts:602-622) splices the client out of the clients array and
destroys its owned publisher and subscription, which splice themselves out
of the publishers and subscriptions arrays (already cleared by the earlier
phases of PluginBus.destroy, so those erasures are no-ops there). -/
def forOfDestroyClients :
    Nat → Nat → List ClientObj → List Publisher → List Subscription → ClientPhase
  | 0, _, cl, pubs, subs => ⟨cl, pubs, subs, []⟩
  | fuel + 1, idx, cl, pubs, subs =>
      if h : idx < cl.length then
        let c := cl.get ⟨idx, h⟩
        let cl2 := cl.eraseP (fun x => x.cid == c.cid)
        let pubs2 := pubs.eraseP (fun p => p.pid == c.pubPid)
        let subs2 := subs.eraseP (fun s => s.sid == c.subSid)
        let rest := forOfDestroyClients fuel (idx + 1) cl2 pubs2 subs2
        ⟨rest.clients, rest.publishers, rest.subscriptions, c.cid :: rest.destroyed⟩
      else ⟨cl, pubs, subs, []⟩

/-- Which children had destroy called on them during PluginBus.destroy,
per collection, in call order. -/
structure DestroyLog where
  destroyedSubs : List Nat
  destroyedPubs : List Nat
  destroyedClients : List Nat
  destroyedServices : List Nat
  deriving DecidableEq, Repr

/-- PluginBus.destroy (pluginSDK.ts:777-802): destroyAll over the
subscriptions, then the publishers, then the clients, then the services,
each loop followed by clearing its array (length set to 0); finally the
window message handler is removed. The base Service.destroy
(pluginSDK.ts:362-365) does not deregister, so the services loop iterates
without self-splicing. The clients loop runs against the already-cleared
publishers and subscriptions arrays. -/
def busDestroy (b : BusState) : BusState × DestroyLog :=
  let rs := forOfDestroy subEraseSelf b.subscriptions.length 0 b.subscriptions
  let rp := forOfDestroy pubEraseSelf b.publishers.length 0 b.publishers
  let rc := forOfDestroyClients b.clients.length 0 b.clients [] []
  let rv := forOfDestroy (fun _ l => l) b.services.length 0 b.services
  (⟨rc.subscriptions, rc.publishers, [], [], false, b.nextId⟩,
   ⟨rs.2.map (fun s => s.sid), rp.2.map (fun p => p.pid), rc.destroyed, rv.2⟩)

/-- The frame effect claimed for one facade getter g with base topic t:
the call appends exactly one client, one publisher and one subscription to
the bus collections, wired together and on the sub-topics suffixed _REQ
and _RES, and these three children survive every further sequence of
facade operations (nothing destroys them before the bus itself is
destroyed). -/
def getterRegisters (g : BusState → BusState) (t : String) (b : BusState) : Prop :=
  (g b).clients.length = b.clients.length + 1 ∧
  (g b).publishers.length = b.publishers.length + 1 ∧
  (g b).subscriptions.length = b.subscriptions.length + 1 ∧
  ∃ c p s,
    (g b).clients = b.clients ++ [c] ∧
    (g b).publishers = b.publishers ++ [p] ∧
    (g b).subscriptions = b.subscriptions ++ [s] ∧
    c.topic = t ∧ p.topic = t ++ "_REQ" ∧ s.topic = t ++ "_RES" ∧
    c.pubPid = p.pid ∧ c.subSid = s.sid ∧
    ∀ ops : List FacadeOp,
      c ∈ (applyOps (g b) ops).clients ∧
      p ∈ (applyOps (g b) ops).publishers ∧
      s ∈ (applyOps (g b) ops).subscriptions

/-- A small concrete bus: two subscriptions, two publishers, one client
and one service, all registered, handler installed. -/
def demoBus : BusState :=
  ⟨[⟨1, "A", CbBehavior.ok⟩, ⟨2, "B", CbBehavior.ok⟩],
   [⟨3, "C"⟩, ⟨4, "D"⟩],
   [⟨5, "E", 6, 7⟩],
   [8],
   true, 100⟩

/-- The invocation log of the forEach loop projects to the snapshot list:
every snapshot member is invoked, in snapshot order, with the common
payload, irrespective of what the callbacks do to the live list. -/
theorem notifyAll_calls (p : JSValue) (snap : List Subscription) :
    ∀ live : List Subscription,
      ((notifyAll p snap live).1).map (fun i => (i.sid, i.payload)) =
        snap.map (fun s => (s.sid, p)) := by
  induction snap with
  | nil => intro live; rfl
  | cons s rest ih => intro live; simp [notifyAll, ih]

/-- Dispatch of an envelope with a truthy action invokes exactly the
subscriptions whose topic equals the action, in list order, each with the
value of the expression data or-else params. -/
theorem dispatchMessage_calls (subs : List Subscription) (e : Envelope)
    (ha : e.action ≠ "") :
    (dispatchMessage subs e).invoked.map (fun i => (i.sid, i.payload)) =
      (subs.filter (fun s => s.topic == e.action)).map
        (fun s => (s.sid, jsOr e.data e.params)) := by
  unfold dispatchMessage
  rw [if_neg ha]
  by_cases hsnap : (subs.filter (fun s => s.topic == e.action)).length > 0
  · rw [if_pos hsnap]
    exact notifyAll_calls (jsOr e.data e.params) _ subs
  · rw [if_neg hsnap]
    have hnil : subs.filter (fun s => s.topic == e.action) = [] :=
      List.eq_nil_of_length_eq_zero (Nat.eq_zero_of_not_pos hsnap)
    simp [hnil]

/-- C4 (corrected). Dispatch extracts the action, selects all
subscriptions whose topic equals the action, and invokes each of them with
the data field if data is truthy, otherwise with the params field: the
source passes the JS expression data or-else params (pluginSDK.ts:859),
which falls back on truthiness, not on presence. -/
theorem dispatch_selects_topic_and_fallback_payload (subs : List Subscription)
    (e : Envelope) (ha : e.action ≠ "") :
    ((dispatchMessage subs e).invoked.map (fun i => (i.sid, i.payload)) =
      (subs.filter (fun s => s.topic == e.action)).map
        (fun s => (s.sid, jsOr e.data e.params))) ∧
    (e.data.truthy = true → jsOr e.data e.params = e.data) ∧
    (e.data.truthy = false → jsOr e.data e.params = e.params) := by
  refine ⟨dispatchMessage_calls subs e ha, ?_, ?_⟩
  · intro h; simp [jsOr, h]
  · intro h; simp [jsOr, h]

/-- C4 witness: a matching subscription receives params when data is
absent (undefined, hence falsy). -/
theorem dispatch_selects_topic_and_fallback_payload_witness :
    (dispatchMessage [⟨0, "T", CbBehavior.ok⟩]
        ⟨"T", JSValue.undefined, JSValue.num 9⟩).invoked.map
      (fun i => (i.sid, i.payload)) =
      (([⟨0, "T", CbBehavior.ok⟩] : List Subscription).filter
          (fun s => s.topic == "T")).map
        (fun s => (s.sid, jsOr JSValue.undefined (JSValue.num 9))) :=
  (dispatch_selects_topic_and_fallback_payload _ _ (by decide)).1

/-- C4 counterexample: the envelope carries data equal to the number 0,
which is present (not undefined), yet the subscriber is invoked with the
params field, because 0 is falsy. The claim as stated (data if present)
is false on this input. -/
theorem falsy_data_payload_counterexample :
    JSValue.num 0 ≠ JSValue.undefined ∧
    (dispatchMessage [⟨0, "T", CbBehavior.ok⟩]
        ⟨"T", JSValue.num 0, JSValue.num 42⟩).invoked =
      [⟨0, JSValue.num 42, true⟩] := by
  decide

/-- C6 (confirmed). Delivering one envelope with a given action to a list
of subscriptions with pairwise distinct identities invokes exactly the
subscriptions registered on that topic, in registration order, each
exactly once, and every invocation receives the same payload. -/
theorem dispatch_fanout_in_order (subs : List Subscription) (e : Envelope)
    (ha : e.action ≠ "") (hnd : (subs.map (fun s => s.sid)).Nodup) :
    ((dispatchMessage subs e).invoked.map (fun i => i.sid) =
      (subs.filter (fun s => s.topic == e.action)).map (fun s => s.sid)) ∧
    (∀ s ∈ subs, s.topic = e.action →
      ((dispatchMessage subs e).invoked.map (fun i => i.sid)).count s.sid = 1) ∧
    (∀ i ∈ (dispatchMessage subs e).invoked, i.payload = jsOr e.data e.params) := by
  have hcalls := dispatchMessage_calls subs e ha
  have hsids : (dispatchMessage subs e).invoked.map (fun i => i.sid) =
      (subs.filter (fun s => s.topic == e.action)).map (fun s => s.sid) := by
    have := congrArg (List.map Prod.fst) hcalls
    simpa [List.map_map, Function.comp] using this
  refine ⟨hsids, ?_, ?_⟩
  · intro s hs htopic
    rw [hsids]
    have hsub : List.Sublist
        ((subs.filter (fun t => t.topic == e.action)).map (fun t => t.sid))
        (subs.map (fun t => t.sid)) :=
      List.Sublist.map _ (List.filter_sublist subs)
    have hnd2 : ((subs.filter (fun t => t.topic == e.action)).map
        (fun t => t.sid)).Nodup := List.Nodup.sublist hsub hnd
    have hmem : s.sid ∈ (subs.filter (fun t => t.topic == e.action)).map
        (fun t => t.sid) := by
      refine List.mem_map_of_mem _ ?_
      exact List.mem_filter.mpr ⟨hs, by simp [htopic]⟩
    exact List.count_eq_one_of_mem hnd2 hmem
  · intro i hi
    have : (i.sid, i.payload) ∈
        (subs.filter (fun s => s.topic == e.action)).map
          (fun s => (s.sid, jsOr e.data e.params)) := by
      rw [← hcalls]
      exact List.mem_map_of_mem _ hi
    obtain ⟨s, _, heq⟩ := List.mem_map.mp this
    exact (Prod.mk.injEq _ _ _ _ ▸ heq).2.symm ▸ rfl

/-- C6 witness: two subscriptions on topic T and one on topic U; the
subscription with identity 2 is invoked exactly once. -/
theorem dispatch_fanout_in_order_witness :
    ((dispatchMessage
        [⟨1, "T", CbBehavior.ok⟩, ⟨2, "T", CbBehavior.ok⟩, ⟨3, "U", CbBehavior.ok⟩]
        ⟨"T", JSValue.num 1, JSValue.undefined⟩).invoked.map
      (fun i => i.sid)).count 2 = 1 :=
  (dispatch_fanout_in_order _ _ (by decide) (by decide)).2.1
    ⟨2, "T", CbBehavior.ok⟩ (by decide) rfl

/-- C7 (corrected, amended part). A subscription that was destroyed before
a dispatch begins (it is absent from the live list when the envelope
handler runs) is never invoked by that dispatch: the filter snapshot draws
only from the live list. -/
theorem destroyed_before_dispatch_silent (subs : List Subscription) (e : Envelope)
    (k : Nat) (h : ∀ s ∈ subs, s.sid ≠ k) :
    ∀ i ∈ (dispatchMessage subs e).invoked, i.sid ≠ k := by
  intro i hi
  by_cases ha : e.action = ""
  · exfalso
    have : (dispatchMessage subs e).invoked = [] := by
      unfold dispatchMessage; rw [if_pos ha]
    rw [this] at hi
    exact (List.not_mem_nil i) hi
  · have hcalls := dispatchMessage_calls subs e ha
    have : (i.sid, i.payload) ∈
        (subs.filter (fun s => s.topic == e.action)).map
          (fun s => (s.sid, jsOr e.data e.params)) := by
      rw [← hcalls]
      exact List.mem_map_of_mem _ hi
    obtain ⟨s, hsmem, heq⟩ := List.mem_map.mp this
    have hs : s ∈ subs := (List.mem_filter.mp hsmem).1
    have : s.sid = i.sid := (Prod.mk.injEq _ _ _ _ ▸ heq).1
    rw [← this]
    exact h s hs

/-- C7 witness: with only the subscription of identity 1 registered, the
one invocation the dispatched envelope produces does not carry the
deregistered identity 99. -/
theorem destroyed_before_dispatch_silent_witness :
    (Invocation.mk 1 (JSValue.num 1) true).sid ≠ 99 :=
  destroyed_before_dispatch_silent [⟨1, "T", CbBehavior.ok⟩]
    ⟨"T", JSValue.num 1, JSValue.undefined⟩ 99 (by decide)
    ⟨1, JSValue.num 1, true⟩ (by decide)

/-- C7 counterexample: two subscriptions on topic T; the callback of the
first destroys the second while the envelope is being dispatched. The
second is nevertheless invoked (with registered recorded false: its
destroy had already returned and it is absent from the final list), so the
claim that a destroyed subscription is never invoked even for envelopes
being dispatched at the moment of destruction is false on this input. -/
theorem destroyed_mid_dispatch_still_invoked :
    (Invocation.mk 2 (JSValue.num 7) false) ∈
      (dispatchMessage [⟨1, "T", CbBehavior.destroySub 2⟩, ⟨2, "T", CbBehavior.ok⟩]
        ⟨"T", JSValue.num 7, JSValue.undefined⟩).invoked ∧
    (∀ s ∈ (dispatchMessage [⟨1, "T", CbBehavior.destroySub 2⟩, ⟨2, "T", CbBehavior.ok⟩]
        ⟨"T", JSValue.num 7, JSValue.undefined⟩).subs, s.sid ≠ 2) := by
  decide

/-- C8 (confirmed). A throwing subscriber callback is a real exception
inside the notification (runCallback yields an error), the try-catch of
Subscription.notify absorbs it leaving the subscription list unchanged,
and the dispatch invocation log is the full snapshot regardless: every
other subscription on the topic is still notified, and the live list is
intact for later envelopes on other topics. -/
theorem subscriber_exception_contained (subs : List Subscription) (e : Envelope)
    (ha : e.action ≠ "") :
    ((dispatchMessage subs e).invoked.map (fun i => (i.sid, i.payload)) =
      (subs.filter (fun s => s.topic == e.action)).map
        (fun s => (s.sid, jsOr e.data e.params))) ∧
    (∀ s : Subscription, ∀ live : List Subscription, ∀ m : String,
      s.cb = CbBehavior.throwErr m →
      runCallback s.cb live = Except.error m ∧ notify s live = live) := by
  refine ⟨dispatchMessage_calls subs e ha, ?_⟩
  intro s live m hcb
  simp [runCallback, notify, hcb]

/-- C8 witness: a throwing callback on identity 1 does not prevent the
sibling subscription of identity 2 from being notified. -/
theorem subscriber_exception_contained_witness :
    (dispatchMessage [⟨1, "T", CbBehavior.throwErr "boom"⟩, ⟨2, "T", CbBehavior.ok⟩]
        ⟨"T", JSValue.num 3, JSValue.undefined⟩).invoked.map
      (fun i => (i.sid, i.payload)) =
      (([⟨1, "T", CbBehavior.throwErr "boom"⟩, ⟨2, "T", CbBehavior.ok⟩] :
          List Subscription).filter (fun s => s.topic == "T")).map
        (fun s => (s.sid, jsOr (JSValue.num 3) JSValue.undefined)) :=
  (subscriber_exception_contained _ _ (by decide)).1

/-- Once a reqId is absent from the pending table, no later event changes
anything about it: its removal count, its resolutions and its absence all
persist (both handlers check entry presence before acting). -/
theorem runClient_of_not_pending (rid : Nat) (es : List ClientEvent) :
    ∀ s : ClientRun, rid ∉ s.pending →
      (runClient s es).removals.count rid = s.removals.count rid ∧
      (runClient s es).resolutions.filter (fun r => r.1 == rid) =
        s.resolutions.filter (fun r => r.1 == rid) ∧
      rid ∉ (runClient s es).pending := by
  induction es with
  | nil => intro s h; exact ⟨rfl, rfl, h⟩
  | cons e es ih =>
      intro s h
      have hstep : (stepClient s e).removals.count rid = s.removals.count rid ∧
          (stepClient s e).resolutions.filter (fun r => r.1 == rid) =
            s.resolutions.filter (fun r => r.1 == rid) ∧
          rid ∉ (stepClient s e).pending := by
        cases e with
        | response rid2 d =>
            by_cases hmem : rid2 ∈ s.pending
            · have hne : rid2 ≠ rid := fun heq => h (heq ▸ hmem)
              refine ⟨?_, ?_, ?_⟩
              · simp [stepClient, hmem, List.count_append, List.count_eq_zero,
                  Ne.symm hne]
              · simp [stepClient, hmem, List.filter_append, hne]
              · simp only [stepClient, if_pos hmem]
                exact fun hc => h (List.mem_of_mem_erase hc)
            · simp [stepClient, hmem, h]
        | timeoutFire rid2 =>
            by_cases hmem : rid2 ∈ s.pending
            · have hne : rid2 ≠ rid := fun heq => h (heq ▸ hmem)
              refine ⟨?_, ?_, ?_⟩
              · simp [stepClient, hmem, List.count_append, List.count_eq_zero,
                  Ne.symm hne]
              · simp [stepClient, hmem, List.filter_append, hne]
              · simp only [stepClient, if_pos hmem]
                exact fun hc => h (List.mem_of_mem_erase hc)
            · simp [stepClient, hmem, h]
      have hrun : runClient s (e :: es) = runClient (stepClient s e) es := rfl
      rw [hrun]
      obtain ⟨h1, h2, h3⟩ := hstep
      obtain ⟨g1, g2, g3⟩ := ih (stepClient s e) h3
      exact ⟨g1.trans h1, g2.trans h2, g3⟩

/-- While a reqId is a pending key (of a duplicate-free table), the first
event keyed by it wins the race and is the only one that removes the entry
and resolves the promise; if no event targets it, the entry stays and
nothing is resolved for it. -/
theorem runClient_live (rid : Nat) (es : List ClientEvent) :
    ∀ s : ClientRun, rid ∈ s.pending → s.pending.Nodup →
      (firstEventFor rid es = none →
        (runClient s es).removals.count rid = s.removals.count rid ∧
        (runClient s es).resolutions.filter (fun r => r.1 == rid) =
          s.resolutions.filter (fun r => r.1 == rid) ∧
        rid ∈ (runClient s es).pending) ∧
      (∀ v, firstEventFor rid es = some v →
        (runClient s es).removals.count rid = s.removals.count rid + 1 ∧
        (runClient s es).resolutions.filter (fun r => r.1 == rid) =
          s.resolutions.filter (fun r => r.1 == rid) ++ [(rid, v)] ∧
        rid ∉ (runClient s es).pending) := by
  induction es with
  | nil =>
      intro s hmem hnd
      exact ⟨fun _ => ⟨rfl, rfl, hmem⟩, fun v hv => by simp [firstEventFor] at hv⟩
  | cons e es ih =>
      intro s hmem hnd
      by_cases ht : eventTarget e = rid
      · -- the first event keyed by rid acts now and deletes the entry
        have hfirst : firstEventFor rid (e :: es) = some (eventValue e) := by
          simp [firstEventFor, ht]
        have hstep : (stepClient s e).removals.count rid = s.removals.count rid + 1 ∧
            (stepClient s e).resolutions.filter (fun r => r.1 == rid) =
              s.resolutions.filter (fun r => r.1 == rid) ++ [(rid, eventValue e)] ∧
            rid ∉ (stepClient s e).pending := by
          cases e with
          | response rid2 d =>
              have hr : rid2 = rid := ht
              subst hr
              refine ⟨?_, ?_, ?_⟩
              · simp [stepClient, hmem, List.count_append]
              · simp [stepClient, hmem, List.filter_append, eventValue]
              · simp only [stepClient, if_pos hmem]
                intro hc
                exact ((List.Nodup.mem_erase_iff hnd).mp hc).1 rfl
          | timeoutFire rid2 =>
              have hr : rid2 = rid := ht
              subst hr
              refine ⟨?_, ?_, ?_⟩
              · simp [stepClient, hmem, List.count_append]
              · simp [stepClient, hmem, List.filter_append, eventValue]
              · simp only [stepClient, if_pos hmem]
                intro hc
                exact ((List.Nodup.mem_erase_iff hnd).mp hc).1 rfl
        obtain ⟨h1, h2, h3⟩ := hstep
        obtain ⟨g1, g2, g3⟩ := runClient_of_not_pending rid es (stepClient s e) h3
        constructor
        · intro hnone; rw [hfirst] at hnone; exact absurd hnone (by simp)
        · intro v hv
          rw [hfirst] at hv
          have hveq : v = eventValue e := (Option.some.injEq _ _ ▸ hv).symm
          subst hveq
          refine ⟨?_, ?_, g3⟩
          · show (runClient (stepClient s e) es).removals.count rid = _
            rw [g1, h1]
          · show (runClient (stepClient s e) es).resolutions.filter _ = _
            rw [g2, h2]
      · -- an event keyed by another id leaves this entry pending
        have hfirst : firstEventFor rid (e :: es) = firstEventFor rid es := by
          simp [firstEventFor, ht]
        have hstep : (stepClient s e).removals.count rid = s.removals.count rid ∧
            (stepClient s e).resolutions.filter (fun r => r.1 == rid) =
              s.resolutions.filter (fun r => r.1 == rid) ∧
            rid ∈ (stepClient s e).pending ∧ (stepClient s e).pending.Nodup := by
          cases e with
          | response rid2 d =>
              have hne : rid2 ≠ rid := ht
              by_cases hmem2 : rid2 ∈ s.pending
              · refine ⟨?_, ?_, ?_, ?_⟩
                · simp [stepClient, hmem2, List.count_append, List.count_eq_zero,
                    Ne.symm hne]
                · simp [stepClient, hmem2, List.filter_append, hne]
                · simp only [stepClient, if_pos hmem2]
                  exact (List.mem_erase_of_ne (fun heq => hne heq.symm)).mpr hmem
                · simp only [stepClient, if_pos hmem2]
                  exact List.Nodup.erase rid2 hnd
              · simp [stepClient, hmem2, hmem, hnd]
          | timeoutFire rid2 =>
              have hne : rid2 ≠ rid := ht
              by_cases hmem2 : rid2 ∈ s.pending
              · refine ⟨?_, ?_, ?_, ?_⟩
                · simp [stepClient, hmem2, List.count_append, List.count_eq_zero,
                    Ne.symm hne]
                · simp [stepClient, hmem2, List.filter_append, hne]
                · simp only [stepClient, if_pos hmem2]
                  exact (List.mem_erase_of_ne (fun heq => hne heq.symm)).mpr hmem
                · simp only [stepClient, if_pos hmem2]
                  exact List.Nodup.erase rid2 hnd
              · simp [stepClient, hmem2, hmem, hnd]
        obtain ⟨h1, h2, h3, h4⟩ := hstep
        obtain ⟨g1, g2⟩ := ih (stepClient s e) h3 h4
        constructor
        · intro hnone
          rw [hfirst] at hnone
          obtain ⟨k1, k2, k3⟩ := g1 hnone
          exact ⟨k1.trans h1, k2.trans h2, k3⟩
        · intro v hv
          rw [hfirst] at hv
          obtain ⟨k1, k2, k3⟩ := g2 v hv
          refine ⟨?_, ?_, k3⟩
          · show (runClient (stepClient s e) es).removals.count rid = _
            rw [k1, h1]
          · show (runClient (stepClient s e) es).resolutions.filter _ = _
            rw [k2, h2]

/-- C2 (confirmed). For a request whose reqId sits in the (duplicate-free)
pending table, any sequence of response and timer events removes the entry
at most once; it is removed exactly once, by the first event keyed by the
reqId, whichever kind that is, and the promise is resolved exactly once,
with that first event as the value (payload for a response, the null
sentinel for the timeout); the losing event, and every later one, is a
no-op, so a response arriving after the timeout resolves nothing and the
promise is never resolved twice; if no event targets the reqId the entry
stays pending with nothing resolved. -/
theorem pending_entry_removed_once (p : List Nat) (rid : Nat)
    (es : List ClientEvent) (hp : rid ∈ p) (hnd : p.Nodup) :
    (afterEvents p es).removals.count rid ≤ 1 ∧
    (firstEventFor rid es = none →
      (afterEvents p es).removals.count rid = 0 ∧
      (afterEvents p es).resolutions.filter (fun r => r.1 == rid) = [] ∧
      rid ∈ (afterEvents p es).pending) ∧
    (∀ v, firstEventFor rid es = some v →
      (afterEvents p es).removals.count rid = 1 ∧
      (afterEvents p es).resolutions.filter (fun r => r.1 == rid) = [(rid, v)] ∧
      rid ∉ (afterEvents p es).pending) := by
  simp only [afterEvents]
  have h := runClient_live rid es ⟨p, [], []⟩ hp hnd
  obtain ⟨hnone, hsome⟩ := h
  refine ⟨?_, ?_, ?_⟩
  · cases hfe : firstEventFor rid es with
    | none => rw [(hnone hfe).1]; simp
    | some v => rw [(hsome v hfe).1]; simp
  · intro hfe
    obtain ⟨k1, k2, k3⟩ := hnone hfe
    refine ⟨?_, ?_, k3⟩
    · rw [k1]; simp
    · rw [k2]; simp
  · intro v hfe
    obtain ⟨k1, k2, k3⟩ := hsome v hfe
    refine ⟨?_, ?_, k3⟩
    · rw [k1]; simp
    · rw [k2]; simp

/-- C2 witness: with request 1 pending, the timeout fires first and a late
matching response follows; the entry is removed once and the only
resolution is the null sentinel of the timeout. -/
theorem pending_entry_removed_once_witness :
    (afterEvents [1] [ClientEvent.timeoutFire 1,
        ClientEvent.response 1 (JSValue.num 5)]).resolutions.filter
      (fun r => r.1 == 1) = [(1, none)] :=
  ((pending_entry_removed_once [1] 1
      [ClientEvent.timeoutFire 1, ClientEvent.response 1 (JSValue.num 5)]
      (by decide) (by decide)).2.2 none (by decide)).2.1

/-- C3 (corrected, amended part). An absent timeoutMs maps to the default
of 1000 ms; an explicit 0 is kept as a 0 ms delay (the timer fires at
once, it is not replaced by the default); for every non-duplicate call a
finite timer is armed, and when that timer fires with the request still
pending it resolves the promise to the null sentinel, so no call waits
forever. -/
theorem absent_timeout_default_and_timer_always_armed (pending : List Nat)
    (reqId : Nat) (d : JSValue) (h : reqId ∉ pending) :
    (sendRequest pending reqId d none).timerDelayMs = some 1000 ∧
    (sendRequest pending reqId d (some 0)).timerDelayMs = some 0 ∧
    (∀ t : Option Nat,
      (sendRequest pending reqId d t).timerDelayMs = some (effectiveTimeoutMs t)) ∧
    (∀ t : Option Nat,
      (runClient ⟨(sendRequest pending reqId d t).pendingAfter, [], []⟩
          [ClientEvent.timeoutFire reqId]).resolutions = [(reqId, none)]) := by
  have hmem : reqId ∈ pending ++ [reqId] := by simp
  refine ⟨by simp [sendRequest, h, effectiveTimeoutMs],
    by simp [sendRequest, h, effectiveTimeoutMs],
    fun t => by simp [sendRequest, h], fun t => ?_⟩
  simp [sendRequest, h, runClient, stepClient, hmem]

/-- C3 witness: with an empty pending table, an absent timeout arms the
1000 ms default timer. -/
theorem absent_timeout_default_witness :
    (sendRequest [] 7 (JSValue.str "*") none).timerDelayMs = some 1000 :=
  (absent_timeout_default_and_timer_always_armed [] 7 (JSValue.str "*")
    (by decide)).1

/-- C3 counterexample: a call passing timeoutMs equal to 0 arms a 0 ms
timer, not the 1000 ms default the claim requires (effectiveTimeoutMs of
an absent argument is that default), so the claim that 0 maps to the
default is false on this input. -/
theorem zero_timeout_is_not_default :
    (sendRequest [] 1 (JSValue.str "*") (some 0)).timerDelayMs = some 0 ∧
    (sendRequest [] 1 (JSValue.str "*") (some 0)).timerDelayMs ≠
      some (effectiveTimeoutMs none) := by
  decide

/-- C5 (confirmed). A sendRequest call whose reqId already has a pending
entry resolves immediately to the null sentinel: nothing is published, no
timer is armed, no entry is created, and the pending table is untouched,
so the earlier request with that id resolves under any later event
sequence exactly as it would have without the duplicate call. -/
theorem duplicate_request_id_noop (pending : List Nat) (reqId : Nat)
    (d : JSValue) (t : Option Nat) (h : reqId ∈ pending) :
    sendRequest pending reqId d t = ⟨pending, true, none, none⟩ ∧
    (∀ es : List ClientEvent,
      runClient ⟨(sendRequest pending reqId d t).pendingAfter, [], []⟩ es =
        runClient ⟨pending, [], []⟩ es) := by
  constructor
  · simp [sendRequest, h]
  · intro es
    simp [sendRequest, h]

/-- C5 witness: request id 4 is already pending; the duplicate call is
resolved at once to null with no publish and no timer. -/
theorem duplicate_request_id_noop_witness :
    sendRequest [4] 4 (JSValue.num 1) (some 50) =
      ⟨[4], true, none, none⟩ :=
  (duplicate_request_id_noop [4] 4 (JSValue.num 1) (some 50) (by decide)).1

/-- C9 (corrected, amended part). Two consecutive observer triggers with
the same recomputed height publish at most once: the second trigger never
publishes, and the pair publishes exactly once when the height differs
from the recorded one (which starts at 0), zero times when it equals it. -/
theorem identical_heights_publish_at_most_once (s : SdkSize) (h : Nat) :
    (runHeights s [h, h]).2 ≤ 1 ∧
    (s.frmHeight ≠ h → (runHeights s [h, h]).2 = 1) ∧
    (sendHeightToConsole (sendHeightToConsole s h).1 h).2 = false := by
  by_cases heq : s.frmHeight = h
  · refine ⟨?_, ?_, ?_⟩
    · simp [runHeights, sendHeightToConsole, heq]
    · intro hne; exact absurd heq hne
    · simp [sendHeightToConsole, heq]
  · refine ⟨?_, ?_, ?_⟩
    · simp [runHeights, sendHeightToConsole, heq]
    · intro _; simp [runHeights, sendHeightToConsole, heq]
    · simp [sendHeightToConsole, heq]

/-- C9 witness: from a recorded height of 0, two triggers at height 5
publish exactly once. -/
theorem identical_heights_publish_at_most_once_witness :
    (runHeights ⟨0⟩ [5, 5]).2 = 1 :=
  (identical_heights_publish_at_most_once ⟨0⟩ 5).2.1 (by decide)

/-- C9 counterexample: the recorded height starts at 0
(pluginSDK.ts:924), so from a fresh facade two consecutive triggers whose
recomputed height is 0 publish zero times, not the exactly-once the claim
states. -/
theorem initial_zero_height_no_publish :
    (runHeights initialSdkSize [0, 0]).2 = 0 ∧ (0 : Nat) ≠ 1 := by
  decide

/-- C1 (code bug). A bus holding two subscriptions (identities 1 and 2),
two publishers (3 and 4), one client (5) and one service (8): destroy is
called only on subscription 1, publisher 3, client 5 and service 8 —
subscription 2 and publisher 4, though registered, are skipped, because
the for-of loop of destroyAll advances its index over an array each child
just spliced itself out of. The collections still end empty (the arrays
are cleared afterwards) and the message handler is removed last, but the
claim that destroy is called on every child exactly once is violated,
as is the stated intent of the source (destroying all registered
children). -/
theorem bus_destroy_skips_registered_children :
    (busDestroy demoBus).2 = ⟨[1], [3], [5], [8]⟩ ∧
    demoBus.subscriptions.map (fun s => s.sid) = [1, 2] ∧
    demoBus.publishers.map (fun p => p.pid) = [3, 4] ∧
    (busDestroy demoBus).1 = ⟨[], [], [], [], false, 100⟩ := by
  decide

/-- setUrlParams creates a throwaway publisher and destroys it at once;
on a bus whose publisher identities are below the allocator, the
publishers collection comes back exactly to what it was (the erasure hits
only the fresh publisher), and only the allocator advances. -/
theorem setUrlParamsBus_eq (b : BusState)
    (hb : ∀ p ∈ b.publishers, p.pid < b.nextId) :
    setUrlParamsBus b =
      ⟨b.subscriptions, b.publishers, b.clients, b.services,
       b.handlerInstalled, b.nextId + 1⟩ := by
  have h1 : ∀ q ∈ b.publishers, ¬ ((fun p : Publisher => p.pid == b.nextId) q = true) := by
    intro q hq
    simp [Nat.ne_of_lt (hb q hq)]
  have h2 : (b.publishers ++ [Publisher.mk b.nextId PLUGIN_TOPIC_URL]).eraseP
      (fun p => p.pid == b.nextId) = b.publishers := by
    rw [List.eraseP_append_right _ h1]
    simp [List.eraseP]
  simp [setUrlParamsBus, createPublisher, publisherDestroy, h2]

/-- createClient preserves the allocator bound and only appends to the
three collections it touches. -/
theorem createClient_preserves (b : BusState) (t : String) (hb : idsBound b) :
    idsBound (createClient b t).1 ∧
    (∀ c ∈ b.clients, c ∈ (createClient b t).1.clients) ∧
    (∀ p ∈ b.publishers, p ∈ (createClient b t).1.publishers) ∧
    (∀ s ∈ b.subscriptions, s ∈ (createClient b t).1.subscriptions) := by
  obtain ⟨h1, h2, h3⟩ := hb
  refine ⟨⟨?_, ?_, ?_⟩, ?_, ?_, ?_⟩
  · intro s hs
    simp [createClient] at hs ⊢
    rcases hs with hs | rfl
    · have := h1 s hs; omega
    · simp
  · intro p hp
    simp [createClient] at hp ⊢
    rcases hp with hp | rfl
    · have := h2 p hp; omega
    · simp
  · intro c hc
    simp [createClient] at hc ⊢
    rcases hc with hc | rfl
    · have := h3 c hc; omega
    · simp
  · intro c hc; simp [createClient, hc]
  · intro p hp; simp [createClient, hp]
  · intro s hs; simp [createClient, hs]

/-- Every facade operation preserves the allocator bound and never removes
an existing client, publisher or subscription from the bus. -/
theorem applyOp_preserves (b : BusState) (op : FacadeOp) (hb : idsBound b) :
    idsBound (applyOp b op) ∧
    (∀ c ∈ b.clients, c ∈ (applyOp b op).clients) ∧
    (∀ p ∈ b.publishers, p ∈ (applyOp b op).publishers) ∧
    (∀ s ∈ b.subscriptions, s ∈ (applyOp b op).subscriptions) := by
  cases op with
  | getContext => exact createClient_preserves b PLUGIN_SRV_PROPS hb
  | getUrl => exact createClient_preserves b PLUGIN_SRV_URL hb
  | setUrl =>
      obtain ⟨h1, h2, h3⟩ := hb
      have heq : applyOp b FacadeOp.setUrl =
          ⟨b.subscriptions, b.publishers, b.clients, b.services,
           b.handlerInstalled, b.nextId + 1⟩ := setUrlParamsBus_eq b h2
      rw [heq]
      refine ⟨⟨?_, ?_, ?_⟩, ?_, ?_, ?_⟩
      · intro s hs; exact Nat.lt_succ_of_lt (h1 s hs)
      · intro p hp; exact Nat.lt_succ_of_lt (h2 p hp)
      · intro c hc; exact Nat.lt_succ_of_lt (h3 c hc)
      · intro c hc; exact hc
      · intro p hp; exact hp
      · intro s hs; exact hs

/-- No sequence of facade operations removes an existing client, publisher
or subscription from a well-formed bus. -/
theorem applyOps_preserves (ops : List FacadeOp) :
    ∀ b : BusState, idsBound b →
      ∀ c ∈ b.clients, ∀ p ∈ b.publishers, ∀ s ∈ b.subscriptions,
        c ∈ (applyOps b ops).clients ∧ p ∈ (applyOps b ops).publishers ∧
          s ∈ (applyOps b ops).subscriptions := by
  induction ops with
  | nil => intro b _ c hc p hp s hs; exact ⟨hc, hp, hs⟩
  | cons op rest ih =>
      intro b hb c hc p hp s hs
      obtain ⟨hb2, hcs, hps, hss⟩ := applyOp_preserves b op hb
      have hfold : applyOps b (op :: rest) = applyOps (applyOp b op) rest := rfl
      rw [hfold]
      exact ih (applyOp b op) hb2 c (hcs c hc) p (hps p hp) s (hss s hs)

/-- The registration-and-leak property holds of createClient on any base
topic, over a well-formed bus. -/
theorem getterRegisters_createClient (t : String) (b : BusState)
    (hb : idsBound b) :
    getterRegisters (fun x => (createClient x t).1) t b := by
  obtain ⟨hb2, _, _, _⟩ := createClient_preserves b t hb
  refine ⟨by simp [createClient], by simp [createClient], by simp [createClient],
    ⟨b.nextId, t, b.nextId + 1, b.nextId + 2⟩, ⟨b.nextId + 1, t ++ "_REQ"⟩,
    ⟨b.nextId + 2, t ++ "_RES", CbBehavior.ok⟩,
    by simp [createClient], by simp [createClient], by simp [createClient],
    rfl, rfl, rfl, rfl, rfl, ?_⟩
  intro ops
  exact applyOps_preserves ops (createClient b t).1 hb2
    _ (by simp [createClient]) _ (by simp [createClient]) _ (by simp [createClient])

/-- C10 (confirmed). On a well-formed bus, each of the facade getters
creates a fresh client together with its REQ publisher and RES
subscription, appending exactly one element to each of the clients,
publishers and subscriptions collections, wired together on the base
topic with the derived sub-topics; the getter never destroys them, and no
further sequence of facade operations removes any of the three, so they
persist until the bus itself is destroyed. -/
theorem facade_getters_register_and_persist (b : BusState) (hb : idsBound b) :
    getterRegisters getUpsunContextBus PLUGIN_SRV_PROPS b ∧
    getterRegisters getUrlParamsBus PLUGIN_SRV_URL b :=
  ⟨getterRegisters_createClient PLUGIN_SRV_PROPS b hb,
   getterRegisters_createClient PLUGIN_SRV_URL b hb⟩

/-- C10 witness: the property holds of the bus of a freshly constructed
facade. -/
theorem facade_getters_register_and_persist_witness :
    idsBound emptyBus ∧
    (getterRegisters getUpsunContextBus PLUGIN_SRV_PROPS emptyBus ∧
     getterRegisters getUrlParamsBus PLUGIN_SRV_URL emptyBus) :=
  ⟨by decide, facade_getters_register_and_persist emptyBus (by decide)⟩

end SDK
